import Mathlib

/-!
Verification of the patch subsystem of the tscircuit schematic editor.

The development shallowly embeds the TypeScript sources:
* `lib/patch.ts` — patch data model, `validatePatch`, `createEmptyPatch`,
  `patchToCircuitJson`, `circuitJsonToPatch`;
* `lib/elk-service.ts` — connectivity analysis (`ELKLayoutService`);
* the patch extractor (`extractPatchFromSchematic`);
* the insertion hook (`UseInsertPatch.onInsertPatch` in `patch-api-client`);
* `lib/patch-manager.ts` — `PatchManager` (save / delete / import and the
  library index), with the file system modelled as an association list from
  paths to JSON documents and wall-clock readings passed in as parameters.

JavaScript `Record` values are modelled as association lists, `Map` as an
association list with JS `Map` update semantics (replace in place, append new
keys), and a JSON universe `Json` models dynamic values.  A key holding
`undefined` is modelled as an absent key, matching `JSON.stringify`
round-trip semantics.
-/

/-- A scalar property value (`string | number` in the source). -/
inductive PropVal where
  | s (v : String)
  | n (v : Int)
deriving DecidableEq, Repr

/-- 2-D position `{x, y}`. -/
structure Pos where
  x : Int
  y : Int
deriving DecidableEq, Repr

/-- One endpoint of a `PatchNet` (`{componentId, pinName}`). -/
structure NetConn where
  componentId : String
  pinName : String
deriving DecidableEq, Repr

/-- `PatchComponent` from `lib/patch.ts`. -/
structure PatchComponent where
  id : String
  name : String
  type : String
  properties : List (String × PropVal)
  position : Pos
deriving DecidableEq, Repr

/-- `PatchNet` from `lib/patch.ts`; `name` is optional. -/
structure PatchNet where
  id : String
  name : Option String
  connections : List NetConn
deriving DecidableEq, Repr

/-- The four interface-pin sides. -/
inductive PinPosition where
  | top | bottom | left | right
deriving DecidableEq, Repr

/-- The interface-pin semantic kinds. -/
inductive PinType where
  | power | ground | signal | clock | reset | data
deriving DecidableEq, Repr

/-- `PatchInterfacePin` from `lib/patch.ts`. -/
structure PatchInterfacePin where
  id : String
  name : String
  position : PinPosition
  internalNetName : String
  type : PinType
deriving DecidableEq, Repr

/-- `PatchMetadata` from `lib/patch.ts`. -/
structure PatchMetadata where
  name : String
  description : Option String
  version : String
  createdAt : String
  modifiedAt : String
  author : Option String
  tags : Option (List String)
deriving DecidableEq, Repr

/-- `PatchData` from `lib/patch.ts`.  In TypeScript `schemaVersion` has the
literal type `"1.0"`; here it is a `String` field that is `"1.0"` on every
value produced by the system. -/
structure PatchData where
  schemaVersion : String
  metadata : PatchMetadata
  components : List PatchComponent
  nets : List PatchNet
  interfacePins : List PatchInterfacePin
  symbolSvg : Option String
deriving DecidableEq, Repr

/-- Validation error kinds. -/
inductive ValErrType where
  | unconnectedPin | floatingNet | missingInterfacePin | invalidConnection
deriving DecidableEq, Repr

/-- Validation severities. -/
inductive Severity where
  | error | warning
deriving DecidableEq, Repr

/-- `PatchValidationError` from `lib/patch.ts`. -/
structure PatchValidationError where
  type : ValErrType
  severity : Severity
  message : String
  componentId : Option String
  netId : Option String
  pinId : Option String
deriving DecidableEq, Repr

/-- `s.startsWith pre`, phrased over the character lists so that it reduces
inside the kernel (extensionally `String.startsWith`). -/
def strStartsWith (s pre : String) : Bool :=
  pre.data.isPrefixOf s.data

/-- JS truthiness coercion for an optional net name: `net.name || net.id`
falls back to the id when the name is absent or the empty string. -/
def netDisplayName (net : PatchNet) : String :=
  match net.name with
  | some s => if s = "" then net.id else s
  | none => net.id

/-- The `unconnected-pin` errors `validatePatch` produces while iterating one
component: one error per `pin_`-prefixed property key that appears as an
endpoint of no net. -/
def componentPinErrors (patch : PatchData) (component : PatchComponent) :
    List PatchValidationError :=
  (component.properties.filter (fun kv => strStartsWith kv.1 "pin_")).filterMap
    (fun kv =>
      if patch.nets.any (fun net =>
          net.connections.any (fun conn =>
            conn.componentId = component.id ∧ conn.pinName = kv.1)) then
        none
      else
        some { type := .unconnectedPin, severity := .error,
               message := component.name ++ " pin " ++ kv.1 ++ " is unconnected",
               componentId := some component.id, netId := none,
               pinId := some kv.1 })

/-- The `floating-net` warnings `validatePatch` produces: one per net with
fewer than two endpoints. -/
def netFloatingWarnings (patch : PatchData) : List PatchValidationError :=
  patch.nets.filterMap (fun net =>
    if net.connections.length < 2 then
      some { type := .floatingNet, severity := .warning,
             message := "Net \x22" ++ netDisplayName net ++ "\x22 has only "
               ++ toString net.connections.length ++ " connection(s)",
             componentId := none, netId := some net.id, pinId := none }
    else none)

/-- `validatePatch` from `lib/patch.ts`: unconnected-pin errors (in component
then property order) followed by floating-net warnings (in net order). -/
def validatePatch (patch : PatchData) : List PatchValidationError :=
  (patch.components.flatMap (componentPinErrors patch)) ++ netFloatingWarnings patch

/-- `createEmptyPatch` from `lib/patch.ts`; `now` is the ISO timestamp the
source reads from the wall clock. -/
def createEmptyPatch (name : String) (now : String) : PatchData :=
  { schemaVersion := "1.0",
    metadata := { name := name, description := none, version := "1.0.0",
                  createdAt := now, modifiedAt := now,
                  author := none, tags := none },
    components := [], nets := [], interfacePins := [], symbolSvg := none }

/-! ### A JSON universe for wire documents

`patchToCircuitJson` / `circuitJsonToPatch` operate on dynamic objects; we
model those objects with `Json`.  Object fields are ordered, as in
JavaScript; a field whose value would be `undefined` is omitted. -/

/-- JSON values. -/
inductive Json where
  | null
  | str (s : String)
  | num (n : Int)
  | bool (b : Bool)
  | arr (xs : List Json)
  | obj (fields : List (String × Json))

/-- Field lookup on an object (`undefined`, i.e. `none`, elsewhere). -/
def Json.getField (j : Json) (k : String) : Option Json :=
  match j with
  | .obj fields => (fields.find? (fun kv => kv.1 = k)).map (fun kv => kv.2)
  | _ => none

/-- JS truthiness of a JSON value (`undefined` is handled by `jsOr`). -/
def Json.truthy : Json → Bool
  | .null => false
  | .str s => !(s = "")
  | .num n => !(n = 0)
  | .bool b => b
  | .arr _ => true
  | .obj _ => true

/-- `a || b` on an optionally-present JSON value `a`. -/
def jsOr (a : Option Json) (b : Json) : Json :=
  match a with
  | some v => if v.truthy then v else b
  | none => b

/-- JS object-literal semantics for a field list with possible duplicate
keys (a later duplicate overwrites the value in place, as with a spread). -/
def mkObjFields : List (String × Json) → List (String × Json)
  | [] => []
  | (k, v) :: rest =>
    let rest' := mkObjFields rest
    if rest'.any (fun kv => kv.1 = k) then
      -- A later duplicate wins: drop this earlier binding's value but keep
      -- nothing of it (JS keeps the first position; positions are irrelevant
      -- to every claim, and for the objects built here the later value wins
      -- in both renderings).
      rest'
    else (k, v) :: rest'

/-- Canonical JSON view of a `PropVal`. -/
def propValToJson : PropVal → Json
  | .s v => .str v
  | .n v => .num v

/-- Canonical JSON view of a position. -/
def posToJson (p : Pos) : Json :=
  .obj [("x", .num p.x), ("y", .num p.y)]

/-- Canonical JSON view of a net endpoint. -/
def netConnToJson (c : NetConn) : Json :=
  .obj [("componentId", .str c.componentId), ("pinName", .str c.pinName)]

/-- Canonical JSON serialization of a `PatchComponent`
(`JSON.stringify` view, keys in interface order). -/
def componentToJson (c : PatchComponent) : Json :=
  .obj [("id", .str c.id), ("name", .str c.name), ("type", .str c.type),
        ("properties", .obj (c.properties.map (fun kv => (kv.1, propValToJson kv.2)))),
        ("position", posToJson c.position)]

/-- Canonical JSON serialization of a `PatchNet` (optional name omitted
when absent). -/
def netToJson (n : PatchNet) : Json :=
  .obj ((match n.name with
         | some s => [("name", Json.str s)]
         | none => []) ++
        [("id", .str n.id),
         ("connections", .arr (n.connections.map netConnToJson))])

/-- String form of a pin side. -/
def pinPositionStr : PinPosition → String
  | .top => "top" | .bottom => "bottom" | .left => "left" | .right => "right"

/-- String form of a pin kind. -/
def pinTypeStr : PinType → String
  | .power => "power" | .ground => "ground" | .signal => "signal"
  | .clock => "clock" | .reset => "reset" | .data => "data"

/-- Canonical JSON serialization of an interface pin. -/
def pinToJson (p : PatchInterfacePin) : Json :=
  .obj [("id", .str p.id), ("name", .str p.name),
        ("position", .str (pinPositionStr p.position)),
        ("internalNetName", .str p.internalNetName),
        ("type", .str (pinTypeStr p.type))]

/-- Canonical JSON serialization of the metadata record. -/
def metadataToJson (m : PatchMetadata) : Json :=
  .obj ([("name", Json.str m.name)] ++
        (match m.description with
         | some d => [("description", Json.str d)]
         | none => []) ++
        [("version", .str m.version), ("createdAt", .str m.createdAt),
         ("modifiedAt", .str m.modifiedAt)] ++
        (match m.author with
         | some a => [("author", Json.str a)]
         | none => []) ++
        (match m.tags with
         | some ts => [("tags", Json.arr (ts.map Json.str))]
         | none => []))

/-- Canonical JSON serialization of a whole `PatchData` value: the
`JSON.stringify` view, the comparison standard for "equal Patch". -/
def patchDataToJson (p : PatchData) : Json :=
  .obj ([("schemaVersion", Json.str p.schemaVersion),
         ("metadata", metadataToJson p.metadata),
         ("components", .arr (p.components.map componentToJson)),
         ("nets", .arr (p.nets.map netToJson)),
         ("interfacePins", .arr (p.interfacePins.map pinToJson))] ++
        (match p.symbolSvg with
         | some s => [("symbolSvg", Json.str s)]
         | none => []))

/-- The wire form of one component built by `patchToCircuitJson`:
`{name: comp.name, type: comp.type, ...comp.properties}` — the id and the
position are not emitted and the properties are spread flat. -/
def wireComponentJson (c : PatchComponent) : Json :=
  .obj (mkObjFields ([("name", Json.str c.name), ("type", Json.str c.type)] ++
        c.properties.map (fun kv => (kv.1, propValToJson kv.2))))

/-- The wire form of one net built by `patchToCircuitJson`:
`{name: net.name, connections: net.connections}` — the id is not emitted. -/
def wireNetJson (n : PatchNet) : Json :=
  .obj ((match n.name with
         | some s => [("name", Json.str s)]
         | none => []) ++
        [("connections", .arr (n.connections.map netConnToJson))])

/-- `patchToCircuitJson` from `lib/patch.ts`. -/
def patchToCircuitJson (patch : PatchData) : Json :=
  .obj ([("schemaVersion", Json.str "1.0"),
         ("metadata", metadataToJson patch.metadata),
         ("components", .arr (patch.components.map wireComponentJson)),
         ("nets", .arr (patch.nets.map wireNetJson)),
         ("interfacePins", .arr (patch.interfacePins.map pinToJson))] ++
        (match patch.symbolSvg with
         | some s => [("symbolSvg", Json.str s)]
         | none => []))

/-- Default metadata `circuitJsonToPatch` substitutes for a missing
`metadata` field; `now` is the wall-clock reading. -/
def defaultWireMetadata (now : String) : PatchMetadata :=
  { name := "Unnamed Patch", description := none, version := "1.0.0",
    createdAt := now, modifiedAt := now, author := none, tags := none }

/-- `circuitJsonToPatch` from `lib/patch.ts`, seen at the JSON level: the
object it builds from an arbitrary wire document, with each `||` default. -/
def circuitJsonToPatch (json : Json) (now : String) : Json :=
  .obj ([("schemaVersion", jsOr (json.getField "schemaVersion") (.str "1.0")),
         ("metadata", jsOr (json.getField "metadata")
            (metadataToJson (defaultWireMetadata now))),
         ("components", jsOr (json.getField "components") (.arr [])),
         ("nets", jsOr (json.getField "nets") (.arr [])),
         ("interfacePins", jsOr (json.getField "interfacePins") (.arr []))] ++
        (match json.getField "symbolSvg" with
         | some v => [("symbolSvg", v)]
         | none => []))

/-- Wire round trip: serialize with `patchToCircuitJson`, read back with
`circuitJsonToPatch`. -/
def roundTrip (p : PatchData) (now : String) : Json :=
  circuitJsonToPatch (patchToCircuitJson p) now

/-! ### Claim C1: the wire round trip -/

/-- The keys of the first component object of a wire document (a projection
used to tell the lossy round trip from the identity). -/
def firstComponentKeys (j : Json) : List String :=
  match j.getField "components" with
  | some (.arr (c :: _)) =>
    match c with
    | .obj fs => fs.map (fun kv => kv.1)
    | _ => []
  | _ => []

/-- An empty patch plus one perfectly ordinary component. -/
def c1Patch : PatchData :=
  { createEmptyPatch "Test" "T0" with
    components := [{ id := "c1", name := "R1", type := "resistor",
                     properties := [], position := { x := 0, y := 0 } }] }

/-- C1 (counterexample): for the patch built by `createEmptyPatch` plus one
valid component, `circuitJsonToPatch ∘ patchToCircuitJson` is NOT the
identity — the component comes back without its `id`, `properties` and
`position` fields (its keys are `name, type` instead of
`id, name, type, properties, position`). -/
theorem roundTrip_not_identity : roundTrip c1Patch "T1" ≠ patchDataToJson c1Patch :=
  fun h => absurd (congrArg firstComponentKeys h) (by decide)

/-- C1 (amended): the round trip is the identity exactly on the patches with
no components and no nets — for any patch produced by `createEmptyPatch`
(plus arbitrary interface pins, metadata and symbol), converting to wire
form and back yields an equal patch, metadata and timestamps included.  With
a component or a net present the wire form drops the component ids,
positions and flattened properties and the net ids, so equality fails
(`roundTrip_not_identity`). -/
theorem roundTrip_eq_of_no_components_nets (p : PatchData) (now : String)
    (hc : p.components = []) (hn : p.nets = []) (hs : p.schemaVersion = "1.0") :
    roundTrip p now = patchDataToJson p := by
  obtain ⟨sv, md, cs, ns, pins, svg⟩ := p
  simp only at hc hn hs
  subst hc; subst hn; subst hs
  cases svg <;> rfl

/-- C1 (witness): the amended round-trip equality at a concrete empty patch. -/
theorem roundTrip_eq_witness :
    (createEmptyPatch "Demo" "t0").components = [] ∧
    (createEmptyPatch "Demo" "t0").nets = [] ∧
    (createEmptyPatch "Demo" "t0").schemaVersion = "1.0" ∧
    roundTrip (createEmptyPatch "Demo" "t0") "t1"
      = patchDataToJson (createEmptyPatch "Demo" "t0") :=
  ⟨rfl, rfl, rfl, roundTrip_eq_of_no_components_nets _ _ rfl rfl rfl⟩

/-! ### The connectivity engine (`lib/elk-service.ts`) -/

/-- A pin-level graph node (`GraphNode`). -/
structure GraphNode where
  id : String
  componentId : String
  pinName : String
  label : String
deriving DecidableEq, Repr

/-- An entry of the `unconnectedPins` report. -/
structure UnconnectedPinEntry where
  componentId : String
  componentName : String
  pinName : String
deriving DecidableEq, Repr

/-- An entry of the `floatingNets` report. -/
structure FloatingNetEntry where
  netId : String
  netName : Option String
  connectionCount : Nat
deriving DecidableEq, Repr

/-- The result record of `analyzeConnectivity`. -/
structure ConnectivityAnalysis where
  componentCount : Nat
  netCount : Nat
  unconnectedPins : List UnconnectedPinEntry
  floatingNets : List FloatingNetEntry
  subgraphCount : Nat
  isFullyConnected : Bool
deriving DecidableEq, Repr

/-- The graph `buildGraph` returns: the node list plus an adjacency map
(a JS `Map` keyed by node id). -/
structure BuiltGraph where
  nodes : List GraphNode
  adjacencyList : List (String × List String)
deriving Repr

/-- JS `Map.set` on an association list: replace an existing key in place,
append a new one. -/
def mapSet {α : Type} : List (String × α) → String → α → List (String × α)
  | [], k, v => [(k, v)]
  | (k', v') :: rest, k, v =>
    if k' = k then (k, v) :: rest else (k', v') :: mapSet rest k v

/-- JS `Map.get` on an association list. -/
def mapGet {α : Type} : List (String × α) → String → Option α
  | [], _ => none
  | (k', v) :: rest, k => if k' = k then some v else mapGet rest k

/-- JS `Map.delete` on an association list (removes the first occurrence). -/
def mapDelete {α : Type} : List (String × α) → String → List (String × α)
  | [], _ => []
  | (k', v') :: rest, k => if k' = k then rest else (k', v') :: mapDelete rest k

/-- `adjacencyList.get(key)?.push(val)`: append `val` to the list under
`key` when the key is present, do nothing otherwise. -/
def adjPush (adj : List (String × List String)) (key val : String) :
    List (String × List String) :=
  match mapGet adj key with
  | some l => mapSet adj key (l ++ [val])
  | none => adj

/-- Node id of a net endpoint (`` `${conn.componentId}_${conn.pinName}` ``). -/
def endpointNodeId (conn : NetConn) : String :=
  conn.componentId ++ "_" ++ conn.pinName

/-- The adjacent endpoint pairs of one net: `endpoint[i] – endpoint[i+1]`
(a pairwise chain, not a clique). -/
def netChainPairs (net : PatchNet) : List (NetConn × NetConn) :=
  net.connections.zip net.connections.tail

/-- `ELKLayoutService.buildGraph`: one node per `pin_`-prefixed property key
of every component, adjacency edges chaining each net's endpoints pairwise;
an endpoint naming no declared pin contributes no adjacency entry of its
own. -/
def buildGraph (patch : PatchData) : BuiltGraph :=
  let nodes := patch.components.flatMap (fun c =>
    (c.properties.filter (fun kv => strStartsWith kv.1 "pin_")).map (fun kv =>
      { id := c.id ++ "_" ++ kv.1, componentId := c.id, pinName := kv.1,
        label := c.name ++ "." ++ kv.1 }))
  let adj0 := nodes.foldl (fun m n => mapSet m n.id []) []
  let adj := patch.nets.foldl (fun m net =>
    (netChainPairs net).foldl (fun m pr =>
      let id1 := endpointNodeId pr.1
      let id2 := endpointNodeId pr.2
      adjPush (adjPush m id1 id2) id2 id1) m) adj0
  { nodes := nodes, adjacencyList := adj }

/-- `ELKLayoutService.findUnconnectedPins`, exactly as written: the inner
loop runs over every net, so an entry is pushed for EVERY
(component, net) pair in which that particular net references no endpoint of
the component — even when a different net does reference it.  The `graph`
parameter is received and ignored, as in the source. -/
def findUnconnectedPins (patch : PatchData) (_graph : BuiltGraph) :
    List UnconnectedPinEntry :=
  patch.components.flatMap (fun component =>
    patch.nets.filterMap (fun net =>
      if net.connections.any (fun conn => conn.componentId = component.id) then
        none
      else
        some { componentId := component.id, componentName := component.name,
               pinName := "unspecified" }))

/-- `ELKLayoutService.findFloatingNets`. -/
def findFloatingNets (patch : PatchData) : List FloatingNetEntry :=
  (patch.nets.filter (fun net => net.connections.length < 2)).map (fun net =>
    { netId := net.id, netName := net.name,
      connectionCount := net.connections.length })

/-- Fuel-based worklist form of the recursive `dfs` of the source: marks
every node reachable from the stack as visited.  The fuel passed by
`countConnectedSubgraphs` bounds the total number of worklist steps, so the
computed visited set is the full reachable set, as with the recursion of the
source. -/
def dfsWalk (adj : List (String × List String)) :
    Nat → List String → List String → List String
  | 0, visited, _ => visited
  | _ + 1, visited, [] => visited
  | fuel + 1, visited, n :: stack =>
    if visited.contains n then dfsWalk adj fuel visited stack
    else dfsWalk adj fuel (n :: visited) ((mapGet adj n).getD [] ++ stack)

/-- Fuel amply covering every possible pop of `dfsWalk`: one per start node
plus one per adjacency-list entry, for every node. -/
def dfsFuel (adj : List (String × List String)) : Nat :=
  1 + adj.length + adj.foldl (fun a kv => a + kv.2.length) 0

/-- `ELKLayoutService.countConnectedSubgraphs`: iterate the nodes in order,
counting a new island at each unvisited node and marking its whole
reachable set. -/
def countConnectedSubgraphs (graph : BuiltGraph) : Nat :=
  (graph.nodes.foldl (fun (acc : Nat × List String) node =>
    if acc.2.contains node.id then acc
    else (acc.1 + 1,
          dfsWalk graph.adjacencyList (dfsFuel graph.adjacencyList) acc.2 [node.id]))
    (0, [])).1

/-- `ELKLayoutService.analyzeConnectivity`. -/
def analyzeConnectivity (patch : PatchData) : ConnectivityAnalysis :=
  let graph := buildGraph patch
  let unconnectedPins := findUnconnectedPins patch graph
  let floatingNets := findFloatingNets patch
  let subgraphCount := countConnectedSubgraphs graph
  { componentCount := patch.components.length,
    netCount := patch.nets.length,
    unconnectedPins := unconnectedPins,
    floatingNets := floatingNets,
    subgraphCount := subgraphCount,
    isFullyConnected := unconnectedPins.length = 0 ∧ floatingNets.length = 0 }

/-! ### Claims C2 and C5: what `findUnconnectedPins` actually reports -/

/-- Two components, each referenced by exactly one of the two nets. -/
def c2Patch : PatchData :=
  { createEmptyPatch "C2" "t" with
    components :=
      [{ id := "a", name := "A", type := "resistor", properties := [],
         position := { x := 0, y := 0 } },
       { id := "b", name := "B", type := "led", properties := [],
         position := { x := 0, y := 0 } }],
    nets :=
      [{ id := "n1", name := some "N1",
         connections := [{ componentId := "a", pinName := "pin1" }] },
       { id := "n2", name := some "N2",
         connections := [{ componentId := "b", pinName := "pin1" }] }] }

/-- C2 (code bug, evaluated at the failing input): in `c2Patch` every
component is referenced by some net, yet `findUnconnectedPins` flags both —
the membership test sits inside the per-net loop, so a component is flagged
once for every net that happens not to reference it, contrary to the
function's own documentation ("pins that are not connected to any net"). -/
theorem findUnconnectedPins_flags_connected_components :
    (findUnconnectedPins c2Patch (buildGraph c2Patch)).map
        (fun e => e.componentId) = ["a", "b"]
    ∧ c2Patch.components.all (fun c =>
        c2Patch.nets.any (fun net =>
          net.connections.any (fun conn => conn.componentId = c.id))) = true := by
  decide

/-- The §8 scenario patch: `R1` at (0,0), `D1` at (50,0), one net `VCC` with
endpoints `(R1, pin2)` and `(D1, anode)`. -/
def c5Patch : PatchData :=
  { createEmptyPatch "Scenario" "t" with
    components :=
      [{ id := "r1", name := "R1", type := "resistor",
         properties := [("pin_1", .s "a"), ("pin_2", .s "b")],
         position := { x := 0, y := 0 } },
       { id := "d1", name := "D1", type := "led",
         properties := [("pin_anode", .s "a"), ("pin_cathode", .s "b")],
         position := { x := 50, y := 0 } }],
    nets :=
      [{ id := "vcc", name := some "VCC",
         connections := [{ componentId := "r1", pinName := "pin2" },
                         { componentId := "d1", pinName := "anode" }] }] }

/-- C5 (counterexample): on the §8 scenario patch `analyzeConnectivity`
reports NO unconnected-pin entries — the single net references both
components, and `findUnconnectedPins` works at component granularity — so
the claimed "nonzero number of unconnected-pin entries" is false. -/
theorem scenario_unconnected_empty :
    (analyzeConnectivity c5Patch).unconnectedPins = [] := by decide

/-- C5 (amended): on the §8 scenario patch `analyzeConnectivity` reports
`componentCount = 2`, `netCount = 1` and zero unconnected-pin entries. -/
theorem scenario_analysis_counts :
    (analyzeConnectivity c5Patch).componentCount = 2
    ∧ (analyzeConnectivity c5Patch).netCount = 1
    ∧ (analyzeConnectivity c5Patch).unconnectedPins.length = 0 := by decide

/-! ### Claim C10: `validatePatch` recognizes pin slots by the `pin_` prefix -/

/-- C10: a property key is a pin slot for `validatePatch` exactly when it
starts with `"pin_"`: (1) a component none of whose property keys starts
with `"pin_"` produces no unconnected-pin error; hence (2) in a patch where
no component has a `"pin_"`-prefixed property key every validation result is
a warning (the only other results are floating-net warnings). -/
theorem validatePatch_pin_prefix :
    (∀ (p : PatchData) (c : PatchComponent), c ∈ p.components →
      (∀ kv ∈ c.properties, ¬ strStartsWith kv.1 "pin_") →
      componentPinErrors p c = [])
    ∧ (∀ p : PatchData,
        (∀ c ∈ p.components, ∀ kv ∈ c.properties, ¬ strStartsWith kv.1 "pin_") →
        ∀ e ∈ validatePatch p, e.severity = .warning) := by
  have h1 : ∀ (p : PatchData) (c : PatchComponent),
      (∀ kv ∈ c.properties, ¬ strStartsWith kv.1 "pin_") →
      componentPinErrors p c = [] := by
    intro p c hkeys
    unfold componentPinErrors
    have : c.properties.filter (fun kv => strStartsWith kv.1 "pin_") = [] := by
      simp only [List.filter_eq_nil_iff]
      intro kv hkv
      exact hkeys kv hkv
    rw [this]
    rfl
  refine ⟨fun p c _ hkeys => h1 p c hkeys, ?_⟩
  intro p hp e he
  unfold validatePatch at he
  rcases List.mem_append.mp he with hmem | hmem
  · rcases List.mem_flatMap.mp hmem with ⟨c, hc, hec⟩
    rw [h1 p c (hp c hc)] at hec
    exact absurd hec (List.not_mem_nil e)
  · unfold netFloatingWarnings at hmem
    rcases List.mem_filterMap.mp hmem with ⟨net, _, hnet⟩
    by_cases hlen : net.connections.length < 2
    · simp only [hlen, if_pos] at hnet
      cases hnet
      rfl
    · simp only [hlen, if_neg, not_false_iff] at hnet
      simp at hnet

/-- A patch whose sole component has only non-`pin_` property keys and whose
sole net is floating. -/
def c10Patch : PatchData :=
  { createEmptyPatch "W" "t" with
    components := [{ id := "c1", name := "R1", type := "resistor",
                     properties := [("resistance", .s "10k")],
                     position := { x := 0, y := 0 } }],
    nets := [{ id := "n1", name := none,
               connections := [{ componentId := "c1", pinName := "x" }] }] }

/-- C10 (witness): the pin-prefix theorem applied to `c10Patch`'s component. -/
theorem validatePatch_pin_prefix_witness :
    componentPinErrors c10Patch
      { id := "c1", name := "R1", type := "resistor",
        properties := [("resistance", .s "10k")],
        position := { x := 0, y := 0 } } = [] :=
  validatePatch_pin_prefix.1 c10Patch _ (by decide) (by decide)

/-! ### The extraction engine (`extractPatchFromSchematic`, patch-extractor) -/

/-- JS `\s` whitespace (ASCII part). -/
def isJsWs (c : Char) : Bool :=
  c == ' ' || c == '\t' || c == '\n' || c == '\r' || c == '\x0b' || c == '\x0c'

/-- `s.replace(/\s+/g, rep)`: each maximal whitespace run becomes one `rep`. -/
def replaceWsRuns (rep : String) (s : String) : String :=
  (s.data.foldl (fun (acc : String × Bool) c =>
    if isJsWs c then (if acc.2 then acc else (acc.1 ++ rep, true))
    else (acc.1.push c, false)) ("", false)).1

/-- `s.toLowerCase()`, over the character list. -/
def toLowerStr (s : String) : String :=
  ⟨s.data.map Char.toLower⟩

namespace Extractor

/-- A diagram component (`SchematicComponent`). -/
structure SchematicComponent where
  id : String
  type : String
  name : String
  x : Int
  y : Int
  rotation : Option Int
  properties : List (String × PropVal)
deriving DecidableEq, Inhabited, Repr

/-- A diagram connection (`SchematicConnection`): endpoints are strings
formatted `"<componentName>.<pinName>"`. -/
structure SchematicConnection where
  id : String
  net : String
  connections : List String
deriving DecidableEq, Inhabited, Repr

/-- The diagram state handed to the extractor. -/
structure SchematicState where
  components : List SchematicComponent
  connections : List SchematicConnection
deriving DecidableEq, Inhabited, Repr

/-- A component of the extracted patch (the flat object the extractor
builds: `{id, type, name, x, y, rotation, properties}`). -/
structure PatchComponentE where
  id : String
  type : String
  name : String
  x : Int
  y : Int
  rotation : Int
  properties : List (String × PropVal)
deriving DecidableEq, Inhabited, Repr

/-- An internal net of the extracted patch (endpoints stay endpoint
strings). -/
structure PatchNetE where
  id : String
  name : String
  connections : List String
deriving DecidableEq, Inhabited, Repr

/-- An interface pin of the extracted patch (`{name: endpoint, net}`). -/
structure InterfacePinE where
  name : String
  net : String
deriving DecidableEq, Inhabited, Repr

/-- The metadata record the extractor builds. -/
structure PatchMetadataE where
  version : String
  createdAt : String
  updatedAt : String
  description : String
deriving DecidableEq, Inhabited, Repr

/-- The patch record the extractor returns. -/
structure PatchE where
  id : String
  name : String
  components : List PatchComponentE
  nets : List PatchNetE
  interfacePins : List InterfacePinE
  metadata : PatchMetadataE
deriving DecidableEq, Inhabited, Repr

/-- The owning component name of an endpoint string:
`endpoint.split(".")[0]`. -/
def ownerName (ep : String) : String :=
  ⟨ep.data.takeWhile (fun c => c ≠ '.')⟩

/-- `rotation: c.rotation || 0` (JS truthiness: `0` and absence both give
`0`). -/
def rotationOrZero : Option Int → Int
  | some r => if r = 0 then 0 else r
  | none => 0

/-- The selected components: `components.filter(c => selectedIds.has(c.id))`. -/
def selectedComponentsOf (st : SchematicState) (selectedIds : List String) :
    List SchematicComponent :=
  st.components.filter (fun c => selectedIds.contains c.id)

/-- The names of the selected components (the join key for endpoints). -/
def selNamesOf (st : SchematicState) (selectedIds : List String) : List String :=
  (selectedComponentsOf st selectedIds).map (fun c => c.name)

/-- The endpoints of a connection owned by a selected component. -/
def selEndpoints (selNames : List String) (conn : SchematicConnection) :
    List String :=
  conn.connections.filter (fun ep => selNames.contains (ownerName ep))

/-- The endpoints of a connection owned by a non-selected component. -/
def extEndpoints (selNames : List String) (conn : SchematicConnection) :
    List String :=
  conn.connections.filter (fun ep => !(selNames.contains (ownerName ep)))

/-- The classification conditions of the extractor, verbatim: a connection
becomes an internal net when it has no external endpoint and at least one
selected endpoint. -/
def isInternalConn (selNames : List String) (conn : SchematicConnection) : Prop :=
  (extEndpoints selNames conn).length = 0 ∧ 0 < (selEndpoints selNames conn).length

/-- A connection contributes interface pins when it has endpoints on both
sides of the boundary. -/
def isBoundaryConn (selNames : List String) (conn : SchematicConnection) : Prop :=
  0 < (selEndpoints selNames conn).length ∧ 0 < (extEndpoints selNames conn).length

/-- A connection with no selected endpoint is ignored. -/
def isIgnoredConn (selNames : List String) (conn : SchematicConnection) : Prop :=
  (selEndpoints selNames conn).length = 0

/-- The extractor's connection loop: skips an already-processed connection
id, then classifies the connection, accumulating internal nets and
interface pins in loop order. -/
def extractLoop (selNames : List String) :
    List SchematicConnection → List String → List PatchNetE × List InterfacePinE
  | [], _ => ([], [])
  | conn :: rest, processed =>
    if processed.contains conn.id then extractLoop selNames rest processed
    else
      ((if (extEndpoints selNames conn).length = 0
            ∧ 0 < (selEndpoints selNames conn).length then
          { id := conn.id, name := conn.net,
            connections := selEndpoints selNames conn }
            :: (extractLoop selNames rest (conn.id :: processed)).1
        else (extractLoop selNames rest (conn.id :: processed)).1),
       (if 0 < (selEndpoints selNames conn).length
            ∧ 0 < (extEndpoints selNames conn).length then
          (selEndpoints selNames conn).map
            (fun ep => { name := ep, net := conn.net })
            ++ (extractLoop selNames rest (conn.id :: processed)).2
        else (extractLoop selNames rest (conn.id :: processed)).2))

/-- `extractPatchFromSchematic` (patch-extractor source): filter the
selection, refuse an empty selection, convert components, and run the
connection loop. -/
def extractPatchFromSchematic (st : SchematicState) (selectedIds : List String)
    (patchName now : String) : Except String PatchE :=
  let selectedComponents := selectedComponentsOf st selectedIds
  if selectedComponents.length = 0 then
    .error "至少選擇 2 個元件"
  else
    let patchComponents := selectedComponents.map (fun c =>
      { id := c.id, type := c.type, name := c.name, x := c.x, y := c.y,
        rotation := rotationOrZero c.rotation, properties := c.properties })
    let res := extractLoop (selNamesOf st selectedIds) st.connections []
    let meta : PatchMetadataE :=
      { version := "1.0", createdAt := now, updatedAt := now,
        description := "Extracted patch from schematic containing "
          ++ toString selectedComponents.length ++ " components" }
    .ok { id := replaceWsRuns "-" (toLowerStr patchName), name := patchName,
          components := patchComponents, nets := res.1, interfacePins := res.2,
          metadata := meta }

end Extractor


/-! ### Claim C4: the extraction boundary law -/

/-- The produced endpoint set of an `extractLoop` run (internal-net
endpoints and interface-pin names) is exactly the selected endpoints of the
processed connections, provided the pending connection ids are distinct and
none was processed before. -/
theorem extractLoop_endpoints (selNames : List String)
    (conns : List Extractor.SchematicConnection) (processed : List String)
    (hfresh : ∀ c ∈ conns, c.id ∉ processed)
    (hnodup : (conns.map (fun c => c.id)).Nodup) (ep : String) :
    (ep ∈ (Extractor.extractLoop selNames conns processed).1.flatMap
        (fun n => n.connections)
      ∨ ep ∈ (Extractor.extractLoop selNames conns processed).2.map
        (fun p => p.name))
    ↔ ep ∈ conns.flatMap (Extractor.selEndpoints selNames) := by
  induction conns generalizing processed with
  | nil => simp [Extractor.extractLoop]
  | cons conn rest ih =>
    have hni : conn.id ∉ processed := hfresh conn (List.mem_cons_self _ _)
    have hrest : ∀ c ∈ rest, c.id ∉ conn.id :: processed := by
      intro c hc
      simp only [List.mem_cons, not_or]
      refine ⟨fun hid => ?_, hfresh c (List.mem_cons_of_mem _ hc)⟩
      have hmem := List.mem_map_of_mem (fun c => c.id) hc
      simp only [] at hmem
      rw [hid] at hmem
      exact (List.nodup_cons.mp hnodup).1 hmem
    have hnodup' : (rest.map (fun c => c.id)).Nodup :=
      (List.nodup_cons.mp hnodup).2
    have ihr := ih (conn.id :: processed) hrest hnodup'
    have hcont : (processed.contains conn.id) = false := by
      simpa using hni
    rw [Extractor.extractLoop]
    simp only [hcont, Bool.false_eq_true, if_false]
    rcases Nat.eq_zero_or_pos (Extractor.selEndpoints selNames conn).length
      with hselz | hselpos
    · -- ignored: no selected endpoint, nothing contributed on either side
      have hsel_nil : Extractor.selEndpoints selNames conn = [] :=
        List.eq_nil_of_length_eq_zero hselz
      rw [if_neg (by omega), if_neg (by omega)]
      rw [List.flatMap_cons, hsel_nil]
      simpa using ihr
    · rcases Nat.eq_zero_or_pos (Extractor.extEndpoints selNames conn).length
        with hextz | hextpos
      · -- internal net: the selected endpoints are carried by the new net
        rw [if_pos ⟨hextz, hselpos⟩, if_neg (by omega)]
        rw [List.flatMap_cons]
        simp only [List.flatMap_cons, List.mem_append] at ihr ⊢
        tauto
      · -- boundary: the selected endpoints become interface-pin names
        rw [if_neg (by omega), if_pos ⟨hselpos, hextpos⟩]
        rw [List.flatMap_cons]
        simp only [List.flatMap_cons, List.mem_append, List.map_append,
          List.map_map, Function.comp_def, List.map_id] at ihr ⊢
        simp only [List.map_id'] 
        tauto

/-- C4 (amended): provided the diagram's connection ids are pairwise
distinct, every connection is classified into exactly one of
{internal net, interface-pin contributor, ignored}, and the endpoints of the
produced internal nets together with the names of the produced interface
pins are exactly the endpoints of the diagram's connections whose owning
component name is selected.  (With duplicate connection ids the second
occurrence is skipped and its selected endpoints are lost —
`extraction_misses_duplicate_id`.) -/
theorem extraction_boundary_law (st : Extractor.SchematicState)
    (selectedIds : List String) (patchName now : String)
    (hnodup : (st.connections.map (fun c => c.id)).Nodup) :
    (∀ conn ∈ st.connections,
      (Extractor.isInternalConn (Extractor.selNamesOf st selectedIds) conn
        ∨ Extractor.isBoundaryConn (Extractor.selNamesOf st selectedIds) conn
        ∨ Extractor.isIgnoredConn (Extractor.selNamesOf st selectedIds) conn)
      ∧ ¬ (Extractor.isInternalConn (Extractor.selNamesOf st selectedIds) conn
        ∧ Extractor.isBoundaryConn (Extractor.selNamesOf st selectedIds) conn)
      ∧ ¬ (Extractor.isInternalConn (Extractor.selNamesOf st selectedIds) conn
        ∧ Extractor.isIgnoredConn (Extractor.selNamesOf st selectedIds) conn)
      ∧ ¬ (Extractor.isBoundaryConn (Extractor.selNamesOf st selectedIds) conn
        ∧ Extractor.isIgnoredConn (Extractor.selNamesOf st selectedIds) conn))
    ∧ ∀ r, Extractor.extractPatchFromSchematic st selectedIds patchName now
          = Except.ok r →
        ∀ ep : String,
          (ep ∈ r.nets.flatMap (fun n => n.connections)
            ∨ ep ∈ r.interfacePins.map (fun p => p.name))
          ↔ ep ∈ st.connections.flatMap
              (Extractor.selEndpoints (Extractor.selNamesOf st selectedIds)) := by
  constructor
  · intro conn _
    unfold Extractor.isInternalConn Extractor.isBoundaryConn
      Extractor.isIgnoredConn
    omega
  · intro r hr ep
    simp only [Extractor.extractPatchFromSchematic] at hr
    by_cases hlen : (Extractor.selectedComponentsOf st selectedIds).length = 0
    · rw [if_pos hlen] at hr
      exact absurd hr (by simp)
    · rw [if_neg hlen] at hr
      injection hr with hr
      subst hr
      exact extractLoop_endpoints (Extractor.selNamesOf st selectedIds)
        st.connections [] (fun c _ => List.not_mem_nil _) hnodup ep

/-- A diagram with a duplicated connection id: the extractor processes only
the first record carrying the id. -/
def c4State : Extractor.SchematicState :=
  { components := [{ id := "a", type := "resistor", name := "A",
                     x := 0, y := 0, rotation := none, properties := [] }],
    connections := [{ id := "c1", net := "N", connections := ["A.1"] },
                    { id := "c1", net := "M", connections := ["A.2"] }] }

/-- C4 (counterexample): in `c4State` (selection `{a}`) the endpoint `A.2`
belongs to a connection whose owner is selected, yet the extraction produces
only `A.1` — the second connection record shares the id `c1` and is skipped,
so the claimed endpoint-set equality fails for this diagram. -/
theorem extraction_misses_duplicate_id :
    (match Extractor.extractPatchFromSchematic c4State ["a"] "P" "t" with
     | Except.ok r => r.nets.flatMap (fun n => n.connections)
         ++ r.interfacePins.map (fun p => p.name)
     | Except.error _ => []) = ["A.1"]
    ∧ "A.2" ∈ c4State.connections.flatMap
        (Extractor.selEndpoints (Extractor.selNamesOf c4State ["a"])) := by
  decide

/-- A well-formed diagram: one selected component `A`, one boundary
connection (`A.1`–`B.9`) and one internal connection (`A.2`–`A.3`). -/
def c4wState : Extractor.SchematicState :=
  { components := [{ id := "a", type := "resistor", name := "A",
                     x := 0, y := 0, rotation := none, properties := [] }],
    connections := [{ id := "c1", net := "N", connections := ["A.1", "B.9"] },
                    { id := "c2", net := "M", connections := ["A.2", "A.3"] }] }

/-- The patch extracted from `c4wState`. -/
def c4wPatch : Extractor.PatchE :=
  match Extractor.extractPatchFromSchematic c4wState ["a"] "Q" "t" with
  | Except.ok r => r
  | Except.error _ => default

/-- C4 (witness): the boundary law applied to `c4wState` at endpoint
`A.1`. -/
theorem extraction_boundary_law_witness :
    Extractor.extractPatchFromSchematic c4wState ["a"] "Q" "t"
      = Except.ok c4wPatch
    ∧ (("A.1" ∈ c4wPatch.nets.flatMap (fun n => n.connections)
        ∨ "A.1" ∈ c4wPatch.interfacePins.map (fun p => p.name))
       ↔ "A.1" ∈ c4wState.connections.flatMap
           (Extractor.selEndpoints (Extractor.selNamesOf c4wState ["a"]))) :=
  ⟨rfl,
   (extraction_boundary_law c4wState ["a"] "Q" "t" (by decide)).2 c4wPatch
     rfl "A.1"⟩

/-! ### The insertion engine (`UseInsertPatch.onInsertPatch`)

Fresh ids are `` `${comp.id}-${Date.now()}` ``; the `Date.now()` reading is a
parameter `ts : Nat` rendered in decimal. -/

/-- One decimal digit as a character. -/
def digitChar10 : Nat → Char
  | 0 => '0' | 1 => '1' | 2 => '2' | 3 => '3' | 4 => '4'
  | 5 => '5' | 6 => '6' | 7 => '7' | 8 => '8' | 9 => '9'
  | _ => '*'

/-- Least-significant-first decimal digits, with structural fuel so the
kernel can evaluate it. -/
def natDecimalAux : Nat → Nat → List Char
  | 0, _ => []
  | _ + 1, 0 => []
  | fuel + 1, n + 1 =>
    digitChar10 ((n + 1) % 10) :: natDecimalAux fuel ((n + 1) / 10)

/-- Decimal rendering of a natural number (the template-literal
interpolation of `Date.now()`). -/
def natDecimal (n : Nat) : String :=
  if n = 0 then "0" else ⟨(natDecimalAux n n).reverse⟩

theorem natDecimalAux_eq_digits (fuel n : Nat) (h : n ≤ fuel) :
    natDecimalAux fuel n = (Nat.digits 10 n).map digitChar10 := by
  induction fuel generalizing n with
  | zero =>
    have : n = 0 := Nat.le_zero.mp h
    subst this
    simp [natDecimalAux]
  | succ fuel ih =>
    cases n with
    | zero => simp [natDecimalAux]
    | succ m =>
      rw [natDecimalAux]
      rw [Nat.digits_def' (by norm_num : (1 : ℕ) < 10) (Nat.succ_pos m)]
      rw [List.map_cons]
      congr 1
      exact ih _ (Nat.le_of_lt_succ (Nat.lt_of_lt_of_le
        (Nat.div_lt_self (Nat.succ_pos m) (by norm_num)) h))

theorem digitChar10_ne_dash : ∀ d < 10, digitChar10 d ≠ '-' := by decide

theorem digitChar10_inj : ∀ d₁ < 10, ∀ d₂ < 10,
    digitChar10 d₁ = digitChar10 d₂ → d₁ = d₂ := by decide

theorem natDecimal_no_dash (n : Nat) : '-' ∉ (natDecimal n).data := by
  unfold natDecimal
  by_cases hn : n = 0
  · simp only [hn, if_pos rfl]
    decide
  · simp only [hn, if_neg, ite_false]
    rw [natDecimalAux_eq_digits n n le_rfl]
    intro hmem
    rw [List.mem_reverse] at hmem
    rcases List.mem_map.mp hmem with ⟨d, hd, hdc⟩
    exact digitChar10_ne_dash d
      (Nat.digits_lt_base (by norm_num) hd) hdc

theorem map_digitChar10_inj (xs ys : List Nat)
    (hx : ∀ d ∈ xs, d < 10) (hy : ∀ d ∈ ys, d < 10)
    (h : xs.map digitChar10 = ys.map digitChar10) : xs = ys := by
  induction xs generalizing ys with
  | nil => cases ys with
    | nil => rfl
    | cons y ys => simp at h
  | cons x xs ih =>
    cases ys with
    | nil => simp at h
    | cons y ys =>
      simp only [List.map_cons, List.cons.injEq] at h
      have hxy : x = y := digitChar10_inj x
        (hx x (List.mem_cons_self _ _)) y (hy y (List.mem_cons_self _ _)) h.1
      have : xs = ys := ih ys (fun d hd => hx d (List.mem_cons_of_mem _ hd))
        (fun d hd => hy d (List.mem_cons_of_mem _ hd)) h.2
      rw [hxy, this]

theorem natDecimal_inj {n m : Nat} (h : natDecimal n = natDecimal m) : n = m := by
  have hdata := congrArg String.data h
  unfold natDecimal at hdata
  by_cases hn : n = 0 <;> by_cases hm : m = 0
  · rw [hn, hm]
  · exfalso
    simp only [hn, hm, if_pos rfl, if_neg, ite_false] at hdata
    rw [natDecimalAux_eq_digits m m le_rfl] at hdata
    have hrev := congrArg List.reverse hdata
    simp only [List.reverse_reverse] at hrev
    have hdig : Nat.digits 10 m = [0] := by
      have h0 : ([0] : List Nat).map digitChar10 = ['0'] := by decide
      refine map_digitChar10_inj _ _
        (fun d hd => Nat.digits_lt_base (by norm_num) hd) (by decide) ?_
      rw [← hrev, h0]
      decide
    have := Nat.ofDigits_digits 10 m
    rw [hdig] at this
    simp [Nat.ofDigits] at this
    exact hm this.symm
  · exfalso
    simp only [hn, hm, if_pos rfl, if_neg, ite_false] at hdata
    rw [natDecimalAux_eq_digits n n le_rfl] at hdata
    have hrev := congrArg List.reverse hdata
    simp only [List.reverse_reverse] at hrev
    have hdig : Nat.digits 10 n = [0] := by
      have h0 : ([0] : List Nat).map digitChar10 = ['0'] := by decide
      refine map_digitChar10_inj _ _
        (fun d hd => Nat.digits_lt_base (by norm_num) hd) (by decide) ?_
      rw [hrev, h0]
      decide
    have := Nat.ofDigits_digits 10 n
    rw [hdig] at this
    simp [Nat.ofDigits] at this
    exact hn this.symm
  · simp only [hn, hm, if_neg, ite_false] at hdata
    rw [natDecimalAux_eq_digits n n le_rfl,
        natDecimalAux_eq_digits m m le_rfl] at hdata
    have hrev := congrArg List.reverse hdata
    simp only [List.reverse_reverse] at hrev
    have hdig := map_digitChar10_inj _ _
      (fun d hd => Nat.digits_lt_base (by norm_num) hd)
      (fun d hd => Nat.digits_lt_base (by norm_num) hd) hrev
    have h1 := Nat.ofDigits_digits 10 n
    have h2 := Nat.ofDigits_digits 10 m
    rw [hdig] at h1
    rw [h2] at h1
    exact h1.symm

/-- Splitting at the last dash is unambiguous when the suffixes are
dash-free. -/
theorem append_dash_inj (a : List Char) :
    ∀ (b u v : List Char), '-' ∉ u → '-' ∉ v →
      a ++ '-' :: u = b ++ '-' :: v → a = b ∧ u = v := by
  induction a with
  | nil =>
    intro b u v hu hv h
    cases b with
    | nil =>
      simp only [List.nil_append, List.cons.injEq] at h
      exact ⟨rfl, h.2⟩
    | cons c b' =>
      exfalso
      simp only [List.nil_append, List.cons_append, List.cons.injEq] at h
      apply hu
      rw [h.2]
      exact List.mem_append.mpr (Or.inr (List.mem_cons_self _ _))
  | cons c a' ih =>
    intro b u v hu hv h
    cases b with
    | nil =>
      exfalso
      simp only [List.cons_append, List.nil_append, List.cons.injEq] at h
      apply hv
      rw [← h.2]
      exact List.mem_append.mpr (Or.inr (List.mem_cons_self _ _))
    | cons c' b' =>
      simp only [List.cons_append, List.cons.injEq] at h
      obtain ⟨hab, huv⟩ := ih b' u v hu hv h.2
      exact ⟨by rw [h.1, hab], huv⟩

/-- The fresh identifier `` `${id}-${ts}` `` determines both the original id
and the timestamp. -/
theorem insertId_inj (id₁ id₂ : String) (ts₁ ts₂ : Nat)
    (h : id₁ ++ "-" ++ natDecimal ts₁ = id₂ ++ "-" ++ natDecimal ts₂) :
    id₁ = id₂ ∧ ts₁ = ts₂ := by
  have hd : id₁.data ++ '-' :: (natDecimal ts₁).data
      = id₂.data ++ '-' :: (natDecimal ts₂).data := by
    have hdata := congrArg String.data h
    simpa [String.data_append] using hdata
  obtain ⟨hid, hts⟩ := append_dash_inj id₁.data id₂.data _ _
    (natDecimal_no_dash ts₁) (natDecimal_no_dash ts₂) hd
  refine ⟨?_, natDecimal_inj ?_⟩
  · exact congrArg String.mk hid
  · have h1 : natDecimal ts₁ = ⟨(natDecimal ts₁).data⟩ := rfl
    have h2 : natDecimal ts₂ = ⟨(natDecimal ts₂).data⟩ := rfl
    rw [h1, h2, hts]

namespace Insertion

/-- A diagram component after insertion: the spread `{...comp}` keeps the
original fields (the stale `position` record included) and then overwrites
`id` and adds `x`, `y`. -/
structure DiagComponent where
  id : String
  name : String
  type : String
  properties : List (String × PropVal)
  position : Pos
  x : Int
  y : Int
deriving DecidableEq, Repr

/-- A diagram connection created by insertion (`{id, net, connections}`,
endpoint strings). -/
structure DiagConnection where
  id : String
  net : Option String
  connections : List String
deriving DecidableEq, Repr

/-- The live diagram state the hook mutates. -/
structure DiagState where
  components : List DiagComponent
  connections : List DiagConnection
deriving DecidableEq, Repr

/-- The components one `onInsertPatch` call appends: fresh id
`` `${comp.id}-${Date.now()}` `` and position offset by 80 (the JS truthiness
test `comp.position?.x ? comp.position.x + 80 : 80` sends `x = 0` to the
bare offset, which coincides with `0 + 80`). -/
def insertedComponents (patch : PatchData) (ts : Nat) : List DiagComponent :=
  patch.components.map (fun comp =>
    { id := comp.id ++ "-" ++ natDecimal ts,
      name := comp.name, type := comp.type, properties := comp.properties,
      position := comp.position,
      x := if comp.position.x = (0 : Int) then (80 : Int)
           else comp.position.x + 80,
      y := if comp.position.y = (0 : Int) then (80 : Int)
           else comp.position.y + 80 })

/-- The connections one `onInsertPatch` call appends: endpoints rewritten
through the name → fresh-id mapping, with the unmapped component name
passed through unchanged as a fallback. -/
def insertedConnections (patch : PatchData) (ts : Nat)
    (newComponents : List DiagComponent) : List DiagConnection :=
  patch.nets.map (fun net =>
    { id := net.id ++ "-" ++ natDecimal ts,
      net := net.name,
      connections := net.connections.map (fun conn =>
        match newComponents.find? (fun c => c.name = conn.componentId) with
        | some c => c.id ++ "." ++ conn.pinName
        | none => conn.componentId ++ "." ++ conn.pinName) })

/-- `UseInsertPatch.onInsertPatch`: append the translated components and
connections to the live diagram state. -/
def onInsertPatch (patch : PatchData) (ts : Nat) (st : DiagState) : DiagState :=
  { components := st.components ++ insertedComponents patch ts,
    connections := st.connections
      ++ insertedConnections patch ts (insertedComponents patch ts) }

end Insertion

/-! ### Claim C3: insertion non-collision -/

/-- A patch with one component, id `c1`. -/
def c3Patch : PatchData :=
  { createEmptyPatch "C3" "t" with
    components := [{ id := "c1", name := "R1", type := "resistor",
                     properties := [], position := { x := 0, y := 0 } }] }

/-- C3 (counterexample): two sequential insertions of the same patch that
observe the same `Date.now()` reading (the same millisecond) add two
components with the identical id `c1-1000`. -/
theorem insertion_same_timestamp_collides :
    ((Insertion.onInsertPatch c3Patch 1000
        (Insertion.onInsertPatch c3Patch 1000
          { components := [], connections := [] })).components.map
      (fun c => c.id)) = ["c1-1000", "c1-1000"]
    ∧ ¬ List.Pairwise (fun a b : String => a ≠ b) ["c1-1000", "c1-1000"] := by
  decide

/-- C3 (amended): provided the two insertions observe distinct `Date.now()`
readings and the patch's component ids are pairwise distinct, the ids of
all components added across the two calls are pairwise distinct (and the
two calls indeed append exactly those components). -/
theorem insertion_distinct_timestamps_no_collision (patch : PatchData)
    (ts₁ ts₂ : Nat) (st : Insertion.DiagState) (hts : ts₁ ≠ ts₂)
    (hids : (patch.components.map (fun c => c.id)).Nodup) :
    ((Insertion.insertedComponents patch ts₁
        ++ Insertion.insertedComponents patch ts₂).map (fun c => c.id)).Nodup
    ∧ (Insertion.onInsertPatch patch ts₂
        (Insertion.onInsertPatch patch ts₁ st)).components
      = st.components ++ Insertion.insertedComponents patch ts₁
          ++ Insertion.insertedComponents patch ts₂ := by
  have hkey : ∀ ts : Nat,
      (Insertion.insertedComponents patch ts).map (fun c => c.id)
      = (patch.components.map (fun c => c.id)).map
          (fun i => i ++ "-" ++ natDecimal ts) := by
    intro ts
    simp [Insertion.insertedComponents, List.map_map, Function.comp_def]
  constructor
  · rw [List.map_append, hkey ts₁, hkey ts₂]
    apply List.Nodup.append
    · exact hids.map (fun a b h => (insertId_inj a b ts₁ ts₁ h).1)
    · exact hids.map (fun a b h => (insertId_inj a b ts₂ ts₂ h).1)
    · intro x hx1 hx2
      rcases List.mem_map.mp hx1 with ⟨i₁, _, rfl⟩
      rcases List.mem_map.mp hx2 with ⟨i₂, _, heq⟩
      exact hts (insertId_inj i₁ i₂ ts₁ ts₂ heq.symm).2
  · simp [Insertion.onInsertPatch, List.append_assoc]

/-- A two-component patch for the witness. -/
def c3wPatch : PatchData :=
  { createEmptyPatch "C3w" "t" with
    components := [{ id := "a", name := "R1", type := "resistor",
                     properties := [], position := { x := 0, y := 0 } },
                   { id := "b", name := "D1", type := "led",
                     properties := [], position := { x := 50, y := 0 } }] }

/-- C3 (witness): the non-collision theorem at timestamps 1 and 2. -/
theorem insertion_no_collision_witness :
    ((Insertion.insertedComponents c3wPatch 1
        ++ Insertion.insertedComponents c3wPatch 2).map (fun c => c.id)).Nodup
    ∧ (Insertion.onInsertPatch c3wPatch 2
        (Insertion.onInsertPatch c3wPatch 1
          { components := [], connections := [] })).components
      = ({ components := [], connections := [] } :
            Insertion.DiagState).components
          ++ Insertion.insertedComponents c3wPatch 1
          ++ Insertion.insertedComponents c3wPatch 2 :=
  insertion_distinct_timestamps_no_collision c3wPatch 1 2 _
    (by decide) (by decide)

/-! ### The library store (`lib/patch-manager.ts`)

The manager state carries the configuration, the in-memory `libraryIndex`
`Map`, and the file system as an association list from paths to the JSON
documents `writeFileSync` stored there.  Wall-clock readings
(`new Date().toISOString()` and `Date.now()`) are the parameters `nowIso`
and `nowMs`. -/

/-- `PatchLibraryEntry` from `lib/patch.ts`. -/
structure PatchLibraryEntry where
  id : String
  name : String
  filePath : String
  metadata : PatchMetadata
  previewSvg : Option String
  lastUsed : Option String
deriving DecidableEq, Repr

/-- Storage configuration. -/
structure ManagerConfig where
  patchDir : String
  libraryDir : String
  backupDir : String
deriving DecidableEq, Repr

/-- The `PatchManager` state. -/
structure ManagerState where
  config : ManagerConfig
  libraryIndex : List (String × PatchLibraryEntry)
  files : List (String × Json)

/-- `join(dir, name)`. -/
def joinPath (dir name : String) : String := dir ++ "/" ++ name

/-- A fresh manager over an empty index and file system. -/
def initialManagerState (cfg : ManagerConfig) : ManagerState :=
  { config := cfg, libraryIndex := [], files := [] }

/-- The default storage configuration. -/
def defaultConfig : ManagerConfig :=
  { patchDir := "./patches", libraryDir := "./patches/library",
    backupDir := "./patches/.backup" }

/-- Canonical JSON serialization of a library entry (index file content). -/
def entryToJson (e : PatchLibraryEntry) : Json :=
  .obj ([("id", Json.str e.id), ("name", Json.str e.name),
         ("filePath", Json.str e.filePath),
         ("metadata", metadataToJson e.metadata)] ++
        (match e.previewSvg with
         | some s => [("previewSvg", Json.str s)]
         | none => []) ++
        (match e.lastUsed with
         | some s => [("lastUsed", Json.str s)]
         | none => []))

/-- The index file content `saveLibraryIndex` writes. -/
def libraryIndexJson (index : List (String × PatchLibraryEntry)) : Json :=
  .arr (index.map (fun kv => entryToJson kv.2))

/-- `Array.prototype.join(", ")`. -/
def joinComma : List String → String
  | [] => ""
  | [x] => x
  | x :: y :: rest => x ++ ", " ++ joinComma (y :: rest)

/-- Whether `validatePatch` reports an error-severity result. -/
def hasBlockingErrors (patch : PatchData) : Bool :=
  (validatePatch patch).any (fun e => e.severity = Severity.error)

/-- The message of the error `savePatch` throws: every error-severity
message, comma-joined. -/
def saveErrMsg (patch : PatchData) : String :=
  "Cannot save patch with errors: " ++ joinComma
    (((validatePatch patch).filter
        (fun e => e.severity = Severity.error)).map (fun e => e.message))

/-- `PatchManager.updateLibraryIndex`: a deterministic name-derived id keys
the entry; the whole index is rewritten to `library/index.json`. -/
def updateLibraryIndex (st : ManagerState) (patch : PatchData)
    (filepath : String) (nowIso : String) : ManagerState :=
  let id := "patch_" ++ replaceWsRuns "_" patch.metadata.name
  let entry : PatchLibraryEntry :=
    { id := id, name := patch.metadata.name, filePath := filepath,
      metadata := patch.metadata, previewSvg := none, lastUsed := some nowIso }
  let index := mapSet st.libraryIndex id entry
  let files := mapSet st.files (joinPath st.config.libraryDir "index.json")
    (libraryIndexJson index)
  { st with libraryIndex := index, files := files }

/-- The in-place timestamp refresh `patch.metadata.modifiedAt = now`. -/
def refreshPatch (patch : PatchData) (nowIso : String) : PatchData :=
  { patch with metadata := { patch.metadata with modifiedAt := nowIso } }

/-- The stored file name:
`` filename || `${name.replace(/\s+/g, "_")}_v${version}.tscircuit` ``. -/
def saveFileName (patch : PatchData) (filename : Option String) : String :=
  match filename with
  | some f => if f = "" then
      replaceWsRuns "_" patch.metadata.name ++ "_v"
        ++ patch.metadata.version ++ ".tscircuit"
    else f
  | none =>
      replaceWsRuns "_" patch.metadata.name ++ "_v"
        ++ patch.metadata.version ++ ".tscircuit"

/-- The target location of a save. -/
def savePathOf (st : ManagerState) (patch : PatchData)
    (filename : Option String) : String :=
  joinPath st.config.patchDir (saveFileName patch filename)

/-- The pre-overwrite backup step: when a file already sits at the target
location its content is copied to a timestamped backup. -/
def backupFiles (st : ManagerState) (patch : PatchData)
    (filename : Option String) (nowMs : Nat) : List (String × Json) :=
  match mapGet st.files (savePathOf st patch filename) with
  | some content =>
    mapSet st.files
      (joinPath st.config.backupDir
        (saveFileName patch filename ++ "." ++ natDecimal nowMs ++ ".backup"))
      content
  | none => st.files

/-- The file system after the backup step and the write of the refreshed
patch's serialization to the target location. -/
def savedFiles (st : ManagerState) (patch : PatchData)
    (filename : Option String) (nowMs : Nat) : List (String × Json) :=
  mapSet (backupFiles st patch filename nowMs) (savePathOf st patch filename)
    (patchDataToJson patch)

/-- `PatchManager.savePatch`.  Returns the thrown-or-returned value, the
manager state after the call, and the caller's patch object after the call
(the source mutates `patch.metadata.modifiedAt` in place). -/
def savePatchM (st : ManagerState) (patch : PatchData)
    (filename : Option String) (nowIso : String) (nowMs : Nat) :
    Except String String × ManagerState × PatchData :=
  if hasBlockingErrors patch then
    (.error (saveErrMsg patch), st, patch)
  else
    let patch' : PatchData := refreshPatch patch nowIso
    let filepath := savePathOf st patch' filename
    let st' := updateLibraryIndex
      { st with files := savedFiles st patch' filename nowMs }
      patch' filepath nowIso
    (.ok filepath, st', patch')

/-- `PatchManager.deletePatch`: unknown id is a benign `false`; otherwise
the file content is copied to a `deleted_<time>_<name>` backup, the index
entry removed, and the index rewritten — the patch file itself is never
removed. -/
def deletePatchM (st : ManagerState) (patchId : String) (nowMs : Nat) :
    Bool × ManagerState :=
  match mapGet st.libraryIndex patchId with
  | none => (false, st)
  | some entry =>
    let files1 := match mapGet st.files entry.filePath with
      | some content =>
        mapSet st.files
          (joinPath st.config.backupDir
            ("deleted_" ++ natDecimal nowMs ++ "_" ++ entry.name
              ++ ".tscircuit")) content
      | none => st.files
    let index := mapDelete st.libraryIndex patchId
    let files2 := mapSet files1 (joinPath st.config.libraryDir "index.json")
      (libraryIndexJson index)
    (true, { st with libraryIndex := index, files := files2 })

/-! ### Loading and importing

`loadPatch` parses a stored document and normalizes it with
`circuitJsonToPatch`.  The original is dynamically typed; the model closes
the typing gap with a strict decoder from the normalized document back into
`PatchData` — every document this development feeds to `loadPatch` decodes,
and a document the decoder rejects would surface in the original as
`undefined` fields downstream. -/

/-- A JSON string, or nothing. -/
def Json.asString : Json → Option String
  | .str s => some s
  | _ => none

/-- A JSON number, or nothing. -/
def Json.asInt : Json → Option Int
  | .num n => some n
  | _ => none

/-- Decode a scalar property value. -/
def decodePropVal : Json → Option PropVal
  | .str s => some (.s s)
  | .num n => some (.n n)
  | _ => none

/-- Decode a properties record. -/
def decodeProps : Json → Option (List (String × PropVal))
  | .obj fs => fs.mapM (fun kv => (decodePropVal kv.2).map (fun v => (kv.1, v)))
  | _ => none

/-- Decode a position record. -/
def decodePos (j : Json) : Option Pos := do
  let x ← (j.getField "x").bind Json.asInt
  let y ← (j.getField "y").bind Json.asInt
  pure { x := x, y := y }

/-- Decode a net endpoint. -/
def decodeNetConn (j : Json) : Option NetConn := do
  let cid ← (j.getField "componentId").bind Json.asString
  let pin ← (j.getField "pinName").bind Json.asString
  pure { componentId := cid, pinName := pin }

/-- Decode a patch component. -/
def decodeComponent (j : Json) : Option PatchComponent := do
  let id ← (j.getField "id").bind Json.asString
  let name ← (j.getField "name").bind Json.asString
  let ty ← (j.getField "type").bind Json.asString
  let props ← (j.getField "properties").bind decodeProps
  let pos ← (j.getField "position").bind decodePos
  pure { id := id, name := name, type := ty, properties := props,
         position := pos }

/-- Decode an optionally-present string field. -/
def decodeOptStrField (j : Json) (k : String) : Option (Option String) :=
  match j.getField k with
  | none => some none
  | some v => (v.asString).map some

/-- Decode a patch net. -/
def decodeNet (j : Json) : Option PatchNet := do
  let id ← (j.getField "id").bind Json.asString
  let name ← decodeOptStrField j "name"
  let conns ← (j.getField "connections").bind (fun v =>
    match v with
    | .arr xs => xs.mapM decodeNetConn
    | _ => none)
  pure { id := id, name := name, connections := conns }

/-- Decode a pin side. -/
def decodePinPosition : Json → Option PinPosition
  | .str "top" => some .top
  | .str "bottom" => some .bottom
  | .str "left" => some .left
  | .str "right" => some .right
  | _ => none

/-- Decode a pin kind. -/
def decodePinType : Json → Option PinType
  | .str "power" => some .power
  | .str "ground" => some .ground
  | .str "signal" => some .signal
  | .str "clock" => some .clock
  | .str "reset" => some .reset
  | .str "data" => some .data
  | _ => none

/-- Decode an interface pin. -/
def decodePin (j : Json) : Option PatchInterfacePin := do
  let id ← (j.getField "id").bind Json.asString
  let name ← (j.getField "name").bind Json.asString
  let pos ← (j.getField "position").bind decodePinPosition
  let netName ← (j.getField "internalNetName").bind Json.asString
  let ty ← (j.getField "type").bind decodePinType
  pure { id := id, name := name, position := pos, internalNetName := netName,
         type := ty }

/-- Decode the metadata record. -/
def decodeMetadata (j : Json) : Option PatchMetadata := do
  let name ← (j.getField "name").bind Json.asString
  let description ← decodeOptStrField j "description"
  let version ← (j.getField "version").bind Json.asString
  let createdAt ← (j.getField "createdAt").bind Json.asString
  let modifiedAt ← (j.getField "modifiedAt").bind Json.asString
  let author ← decodeOptStrField j "author"
  let tags ← match j.getField "tags" with
    | none => some none
    | some (.arr xs) => (xs.mapM Json.asString).map some
    | some _ => none
  pure { name := name, description := description, version := version,
         createdAt := createdAt, modifiedAt := modifiedAt, author := author,
         tags := tags }

/-- Decode a whole (already normalized) patch document. -/
def decodePatchJson (j : Json) : Option PatchData := do
  let sv ← (j.getField "schemaVersion").bind Json.asString
  let meta ← (j.getField "metadata").bind decodeMetadata
  let comps ← (j.getField "components").bind (fun v =>
    match v with
    | .arr xs => xs.mapM decodeComponent
    | _ => none)
  let nets ← (j.getField "nets").bind (fun v =>
    match v with
    | .arr xs => xs.mapM decodeNet
    | _ => none)
  let pins ← (j.getField "interfacePins").bind (fun v =>
    match v with
    | .arr xs => xs.mapM decodePin
    | _ => none)
  let svg ← decodeOptStrField j "symbolSvg"
  pure { schemaVersion := sv, metadata := meta, components := comps,
         nets := nets, interfacePins := pins, symbolSvg := svg }

/-- `PatchManager.loadPatch`: fatal when the location does not exist,
otherwise parse and normalize via `circuitJsonToPatch`. -/
def loadPatchM (st : ManagerState) (filepath : String) (now : String) :
    Except String PatchData :=
  match mapGet st.files filepath with
  | none => .error ("Patch file not found: " ++ filepath)
  | some json =>
    match decodePatchJson (circuitJsonToPatch json now) with
    | some p => .ok p
    | none => .error "undecodable patch document"

/-- `PatchManager.importPatch`: load, re-save through `savePatch` (which
indexes the patch under its name-derived id), then add a second library
entry under a fresh time-based id `` `patch_${Date.now()}` ``. -/
def importPatchM (st : ManagerState) (filepath : String)
    (nowIso : String) (nowMs : Nat) :
    Except String (PatchLibraryEntry × ManagerState) :=
  match loadPatchM st filepath nowIso with
  | .error e => .error e
  | .ok patch =>
    match savePatchM st patch none nowIso nowMs with
    | (.error e, _, _) => .error e
    | (.ok savedPath, st', patch') =>
      let entry : PatchLibraryEntry :=
        { id := "patch_" ++ natDecimal nowMs, name := patch'.metadata.name,
          filePath := savedPath, metadata := patch'.metadata,
          previewSvg := none, lastUsed := some nowIso }
      let index := mapSet st'.libraryIndex entry.id entry
      let files := mapSet st'.files
        (joinPath st'.config.libraryDir "index.json") (libraryIndexJson index)
      .ok (entry, { st' with libraryIndex := index, files := files })


/-! ### Claims C6 and C9: the save contract -/

theorem mapGet_mapSet_self {α : Type} (m : List (String × α)) (k : String)
    (v : α) : mapGet (mapSet m k v) k = some v := by
  induction m with
  | nil => simp [mapSet, mapGet]
  | cons kv rest ih =>
    obtain ⟨k', v'⟩ := kv
    by_cases h : k' = k
    · simp [mapSet, mapGet, h]
    · simp [mapSet, mapGet, h, ih]

theorem mapGet_mapSet_ne {α : Type} (m : List (String × α)) (k k' : String)
    (v : α) (h : k' ≠ k) : mapGet (mapSet m k v) k' = mapGet m k' := by
  have h' : ¬ (k = k') := fun hh => h hh.symm
  induction m with
  | nil => simp [mapSet, mapGet, h']
  | cons kv rest ih =>
    obtain ⟨k₀, v₀⟩ := kv
    by_cases h0 : k₀ = k
    · subst h0
      simp [mapSet, mapGet, h', h]
    · by_cases h1 : k₀ = k'
      · simp [mapSet, mapGet, h0, h1, h]
      · simp [mapSet, mapGet, h0, h1, ih]

/-- The index rewrite of `updateLibraryIndex` touches no file other than
`library/index.json`. -/
theorem updateLibraryIndex_files_get (st : ManagerState) (patch : PatchData)
    (filepath nowIso loc : String)
    (hne : loc ≠ joinPath st.config.libraryDir "index.json") :
    mapGet (updateLibraryIndex st patch filepath nowIso).files loc
      = mapGet st.files loc := by
  unfold updateLibraryIndex
  exact mapGet_mapSet_ne _ _ _ _ hne

/-- What `savePatch` does on a patch free of blocking errors. -/
theorem savePatchM_ok (st : ManagerState) (patch : PatchData)
    (filename : Option String) (nowIso : String) (nowMs : Nat)
    (hv : hasBlockingErrors patch = false) :
    savePatchM st patch filename nowIso nowMs
      = (Except.ok (savePathOf st (refreshPatch patch nowIso) filename),
         updateLibraryIndex
           { st with
             files := savedFiles st (refreshPatch patch nowIso) filename nowMs }
           (refreshPatch patch nowIso)
           (savePathOf st (refreshPatch patch nowIso) filename) nowIso,
         refreshPatch patch nowIso) := by
  simp [savePatchM, hv]

/-- Every list member is an infix of the comma-join. -/
theorem mem_infix_joinComma (m : String) :
    ∀ xs : List String, m ∈ xs → List.IsInfix m.data (joinComma xs).data := by
  intro xs
  induction xs with
  | nil => intro h; cases h
  | cons x rest ih =>
    intro h
    cases rest with
    | nil =>
      have hx : m = x := by simpa using h
      subst hx
      exact List.infix_refl _
    | cons y ys =>
      rcases List.mem_cons.mp h with rfl | hmem
      · refine ⟨[], (", " ++ joinComma (y :: ys)).data, ?_⟩
        show m.data ++ (", " ++ joinComma (y :: ys)).data
          = (m ++ ", " ++ joinComma (y :: ys)).data
        simp [String.data_append]
      · obtain ⟨s, t, hst⟩ := ih hmem
        refine ⟨(x ++ ", ").data ++ s, t, ?_⟩
        show ((x ++ ", ").data ++ s) ++ m.data ++ t
          = (x ++ ", " ++ joinComma (y :: ys)).data
        rw [List.append_assoc, List.append_assoc]
        rw [← List.append_assoc s m.data t, hst]
        simp [String.data_append]

/-- An infix of the data of `t` is an infix of the data of `p ++ t`. -/
theorem isInfix_append_left (p t : String) (l : List Char)
    (h : List.IsInfix l t.data) : List.IsInfix l (p ++ t).data := by
  obtain ⟨s, u, hsu⟩ := h
  exact ⟨p.data ++ s, u, by
    rw [List.append_assoc, List.append_assoc, ← List.append_assoc s l u, hsu]
    simp [String.data_append]⟩

/-- C6: `savePatch` fails exactly when `validatePatch` reports an
error-severity result; the thrown message carries every error-severity
message (as a substring, not just the first); and on success the returned
patch carries the refreshed modification timestamp and the persisted file
holds exactly the refreshed patch's serialization (stated for a location
other than the index file, which the subsequent index rewrite overwrites). -/
theorem savePatch_validation_contract (st : ManagerState) (patch : PatchData)
    (filename : Option String) (nowIso : String) (nowMs : Nat) :
    ((∃ loc, (savePatchM st patch filename nowIso nowMs).1 = Except.ok loc)
      ↔ hasBlockingErrors patch = false)
    ∧ (∀ msg, (savePatchM st patch filename nowIso nowMs).1
          = Except.error msg →
        ∀ e ∈ validatePatch patch, e.severity = Severity.error →
          List.IsInfix e.message.data msg.data)
    ∧ (∀ loc, (savePatchM st patch filename nowIso nowMs).1 = Except.ok loc →
        (savePatchM st patch filename nowIso nowMs).2.2.metadata.modifiedAt
            = nowIso
        ∧ (loc ≠ joinPath st.config.libraryDir "index.json" →
            mapGet (savePatchM st patch filename nowIso nowMs).2.1.files loc
              = some (patchDataToJson
                  (savePatchM st patch filename nowIso nowMs).2.2))) := by
  by_cases hv : hasBlockingErrors patch
  · have hred : savePatchM st patch filename nowIso nowMs
        = (.error (saveErrMsg patch), st, patch) := by
      simp [savePatchM, hv]
    rw [hred]
    refine ⟨by simp [hv], ?_, by simp⟩
    intro msg hmsg e he hsev
    simp only [Except.error.injEq] at hmsg
    subst hmsg
    have hmem : e.message ∈ ((validatePatch patch).filter
        (fun e => e.severity = Severity.error)).map (fun e => e.message) :=
      List.mem_map_of_mem _ (List.mem_filter.mpr ⟨he, by simp [hsev]⟩)
    exact isInfix_append_left "Cannot save patch with errors: " _ _
      (mem_infix_joinComma e.message _ hmem)
  · rw [savePatchM_ok st patch filename nowIso nowMs (by simpa using hv)]
    refine ⟨by simp [hv], by simp, ?_⟩
    intro loc hloc
    simp only [Except.ok.injEq] at hloc
    subst hloc
    refine ⟨rfl, fun hne => ?_⟩
    dsimp only
    have h1 := updateLibraryIndex_files_get
      { config := st.config, libraryIndex := st.libraryIndex,
        files := savedFiles st (refreshPatch patch nowIso) filename nowMs }
      (refreshPatch patch nowIso)
      (savePathOf st (refreshPatch patch nowIso) filename) nowIso
      (savePathOf st (refreshPatch patch nowIso) filename) hne
    rw [h1]
    exact mapGet_mapSet_self _ _ _

/-- A patch whose single component has two unconnected `pin_` slots: two
blocking errors. -/
def c6Patch : PatchData :=
  { createEmptyPatch "Bad" "t0" with
    components := [{ id := "c1", name := "R1", type := "resistor",
                     properties := [("pin_a", .s "1"), ("pin_b", .s "2")],
                     position := { x := 0, y := 0 } }] }

/-- C6 (witness): the thrown message of saving `c6Patch` contains the
SECOND blocking error's message too. -/
theorem savePatch_validation_contract_witness :
    List.IsInfix ("R1 pin pin_b is unconnected").data
      (saveErrMsg c6Patch).data :=
  (savePatch_validation_contract (initialManagerState defaultConfig) c6Patch
      none "t1" 5).2.1 (saveErrMsg c6Patch) rfl
    { type := .unconnectedPin, severity := .error,
      message := "R1 pin pin_b is unconnected",
      componentId := some "c1", netId := none, pinId := some "pin_b" }
    (by decide) rfl

/-- C9: when validation reports a blocking error, `savePatch` throws before
mutating anything — the returned triple carries the untouched manager state
(no file written or backed up, index untouched) and the untouched patch
(its `modifiedAt` included). -/
theorem savePatch_atomic_on_validation_failure (st : ManagerState)
    (patch : PatchData) (filename : Option String) (nowIso : String)
    (nowMs : Nat) (hv : hasBlockingErrors patch = true) :
    savePatchM st patch filename nowIso nowMs
      = (Except.error (saveErrMsg patch), st, patch) := by
  simp [savePatchM, hv]

/-- C9 (witness): the failure atomicity at a concrete bad patch and a
concrete manager state. -/
theorem savePatch_atomic_witness :
    savePatchM (initialManagerState defaultConfig) c6Patch none "t9" 7
      = (Except.error (saveErrMsg c6Patch),
         initialManagerState defaultConfig, c6Patch) :=
  savePatch_atomic_on_validation_failure (initialManagerState defaultConfig)
    c6Patch none "t9" 7 (by decide)

/-! ### Claim C7: the delete contract -/

theorem mapGet_mapSet_exists {α : Type} (m : List (String × α))
    (k path : String) (v c : α) (h : mapGet m path = some c) :
    ∃ c', mapGet (mapSet m k v) path = some c' := by
  by_cases hp : path = k
  · subst hp
    exact ⟨v, mapGet_mapSet_self _ _ _⟩
  · exact ⟨c, by rw [mapGet_mapSet_ne _ _ _ _ hp]; exact h⟩

/-- C7: deleting an unknown id returns `false` and leaves the whole state
(index and files) unchanged; and for every id, no file present before the
delete disappears — the patch file is only copied to a backup, and its
content survives untouched (stated for a patch file other than the index
file, which every mutation rewrites). -/
theorem deletePatch_contract (st : ManagerState) (patchId : String)
    (nowMs : Nat) :
    (mapGet st.libraryIndex patchId = none →
      deletePatchM st patchId nowMs = (false, st))
    ∧ (∀ path content, mapGet st.files path = some content →
        ∃ content', mapGet (deletePatchM st patchId nowMs).2.files path
          = some content')
    ∧ (∀ entry, mapGet st.libraryIndex patchId = some entry →
        entry.filePath ≠ joinPath st.config.libraryDir "index.json" →
        mapGet (deletePatchM st patchId nowMs).2.files entry.filePath
          = mapGet st.files entry.filePath) := by
  refine ⟨fun h => by simp [deletePatchM, h], ?_, ?_⟩
  · intro path content hpc
    cases hidx : mapGet st.libraryIndex patchId with
    | none =>
      simp only [deletePatchM, hidx]
      exact ⟨content, hpc⟩
    | some entry =>
      simp only [deletePatchM, hidx]
      cases hfe : mapGet st.files entry.filePath with
      | none =>
        simp only [hfe]
        exact mapGet_mapSet_exists _ _ _ _ _ hpc
      | some content0 =>
        simp only [hfe]
        obtain ⟨c1, hc1⟩ := mapGet_mapSet_exists st.files
          (joinPath st.config.backupDir
            ("deleted_" ++ natDecimal nowMs ++ "_" ++ entry.name
              ++ ".tscircuit")) path content0 content hpc
        exact mapGet_mapSet_exists _ _ _ _ _ hc1
  · intro entry hidx hne
    simp only [deletePatchM, hidx]
    cases hfe : mapGet st.files entry.filePath with
    | none =>
      simp only [hfe]
      rw [mapGet_mapSet_ne _ _ _ _ hne]
      exact hfe
    | some content0 =>
      simp only [hfe]
      rw [mapGet_mapSet_ne _ _ _ _ hne]
      by_cases hb : entry.filePath
          = joinPath st.config.backupDir
              ("deleted_" ++ natDecimal nowMs ++ "_" ++ entry.name
                ++ ".tscircuit")
      · conv_lhs => rw [hb]
        rw [mapGet_mapSet_self]
      · rw [mapGet_mapSet_ne _ _ _ _ hb]
        exact hfe

/-- A one-entry library for the delete witness. -/
def c7State : ManagerState :=
  { config := defaultConfig,
    libraryIndex := [("patch_P",
      { id := "patch_P", name := "P", filePath := "./patches/p.tscircuit",
        metadata := (createEmptyPatch "P" "t0").metadata,
        previewSvg := none, lastUsed := none })],
    files := [("./patches/p.tscircuit",
      patchDataToJson (createEmptyPatch "P" "t0"))] }

/-- C7 (witness): deleting an unknown id leaves `c7State` untouched, and
deleting the known id leaves the patch file present. -/
theorem deletePatch_contract_witness :
    deletePatchM c7State "missing" 3 = (false, c7State)
    ∧ ∃ c', mapGet (deletePatchM c7State "patch_P" 3).2.files
        "./patches/p.tscircuit" = some c' :=
  ⟨(deletePatch_contract c7State "missing" 3).1 rfl,
   (deletePatch_contract c7State "patch_P" 3).2.1 "./patches/p.tscircuit"
     (patchDataToJson (createEmptyPatch "P" "t0")) rfl⟩

/-! ### Claim C8: one library entry per persisted patch -/

/-- Every pair of the map either is the newly set one or was already
present. -/
theorem mapSet_mem {α : Type} (m : List (String × α)) (k : String) (v : α) :
    ∀ kv ∈ mapSet m k v, kv = (k, v) ∨ kv ∈ m := by
  induction m with
  | nil => simp [mapSet]
  | cons kv0 rest ih =>
    obtain ⟨k₀, v₀⟩ := kv0
    by_cases h : k₀ = k
    · intro kv hkv
      simp only [mapSet, h, if_pos] at hkv
      rcases List.mem_cons.mp hkv with rfl | hm
      · exact Or.inl rfl
      · exact Or.inr (List.mem_cons_of_mem _ hm)
    · intro kv hkv
      simp only [mapSet, h, if_false] at hkv
      rcases List.mem_cons.mp hkv with rfl | hm
      · exact Or.inr (List.mem_cons_self _ _)
      · rcases ih kv hm with h1 | h1
        · exact Or.inl h1
        · exact Or.inr (List.mem_cons_of_mem _ h1)

/-- `mapSet` keeps the keys pairwise distinct. -/
theorem mapSet_keys_nodup {α : Type} (m : List (String × α)) (k : String)
    (v : α) (h : (m.map (fun kv => kv.1)).Nodup) :
    ((mapSet m k v).map (fun kv => kv.1)).Nodup := by
  induction m with
  | nil => simp [mapSet]
  | cons kv0 rest ih =>
    obtain ⟨k₀, v₀⟩ := kv0
    simp only [List.map_cons, List.nodup_cons] at h
    by_cases hk : k₀ = k
    · rw [show mapSet ((k₀, v₀) :: rest) k v = (k, v) :: rest from by
        simp [mapSet, hk]]
      simp only [List.map_cons, List.nodup_cons]
      rw [← hk]
      exact h
    · simp only [mapSet, hk, if_false, List.map_cons, List.nodup_cons]
      refine ⟨fun hmem => ?_, ih h.2⟩
      rcases List.mem_map.mp hmem with ⟨kv, hkv, hkey⟩
      rcases mapSet_mem rest k v kv hkv with rfl | hin
      · exact hk hkey.symm
      · exact h.1 (hkey ▸ List.mem_map_of_mem _ hin)

/-- The library-index invariant the save path maintains: keys are pairwise
distinct and every entry is keyed by the name-derived id. -/
def NameKeyedIndex (index : List (String × PatchLibraryEntry)) : Prop :=
  (index.map (fun kv => kv.1)).Nodup
  ∧ ∀ kv ∈ index, kv.1 = "patch_" ++ replaceWsRuns "_" kv.2.name

/-- `savePatch` preserves the name-keyed index invariant. -/
theorem savePatchM_index_invariant (st : ManagerState) (patch : PatchData)
    (filename : Option String) (nowIso : String) (nowMs : Nat)
    (h : NameKeyedIndex st.libraryIndex) :
    NameKeyedIndex ((savePatchM st patch filename nowIso nowMs).2.1.libraryIndex) := by
  by_cases hv : hasBlockingErrors patch
  · have hred : savePatchM st patch filename nowIso nowMs
        = (.error (saveErrMsg patch), st, patch) := by
      simp [savePatchM, hv]
    rw [hred]
    exact h
  · rw [savePatchM_ok st patch filename nowIso nowMs (by simpa using hv)]
    dsimp only
    unfold updateLibraryIndex
    refine ⟨mapSet_keys_nodup _ _ _ h.1, ?_⟩
    intro kv hkv
    rcases mapSet_mem _ _ _ kv hkv with rfl | hin
    · rfl
    · exact h.2 kv hin

/-- Run a list of `savePatch` calls (patch, filename, iso time, ms time),
continuing past validation failures as the callers do. -/
def runSaves (st : ManagerState) :
    List (PatchData × Option String × String × Nat) → ManagerState
  | [] => st
  | (p, fn, tIso, tMs) :: rest =>
    runSaves (savePatchM st p fn tIso tMs).2.1 rest

theorem runSaves_index_invariant (ops : List (PatchData × Option String × String × Nat)) :
    ∀ st : ManagerState, NameKeyedIndex st.libraryIndex →
      NameKeyedIndex ((runSaves st ops).libraryIndex) := by
  induction ops with
  | nil => exact fun st h => h
  | cons op rest ih =>
    intro st h
    obtain ⟨p, fn, tIso, tMs⟩ := op
    exact ih _ (savePatchM_index_invariant st p fn tIso tMs h)

/-- In a list with pairwise-distinct keys, two members sharing a key are the
same member. -/
theorem mem_eq_of_keys_nodup {α : Type} (m : List (String × α))
    (h : (m.map (fun kv => kv.1)).Nodup) :
    ∀ kv₁ ∈ m, ∀ kv₂ ∈ m, kv₁.1 = kv₂.1 → kv₁ = kv₂ := by
  induction m with
  | nil => simp
  | cons kv0 rest ih =>
    simp only [List.map_cons, List.nodup_cons] at h
    intro kv₁ h1 kv₂ h2 hk
    rcases List.mem_cons.mp h1 with he1 | hr1 <;>
      rcases List.mem_cons.mp h2 with he2 | hr2
    · rw [he1, he2]
    · exfalso
      apply h.1
      rw [← he1, hk]
      exact List.mem_map.mpr ⟨kv₂, hr2, rfl⟩
    · exfalso
      apply h.1
      rw [← he2, ← hk]
      exact List.mem_map.mpr ⟨kv₁, hr1, rfl⟩
    · exact ih h.2 kv₁ hr1 kv₂ hr2 hk

/-- C8 (amended): after any sequence of `savePatch` calls from a fresh
manager, the library index holds at most one entry per patch name — two
entries with the same name coincide (save keys every entry by the
deterministic name-derived id).  `importPatch` breaks the one-entry-per-
patch reading: it leaves a second, time-keyed entry for the same persisted
patch (`importPatch_duplicate_entries`). -/
theorem saves_one_entry_per_name (cfg : ManagerConfig)
    (ops : List (PatchData × Option String × String × Nat)) :
    ∀ kv₁ ∈ (runSaves (initialManagerState cfg) ops).libraryIndex,
    ∀ kv₂ ∈ (runSaves (initialManagerState cfg) ops).libraryIndex,
      kv₁.2.name = kv₂.2.name → kv₁ = kv₂ := by
  have hinv := runSaves_index_invariant ops (initialManagerState cfg)
    ⟨List.nodup_nil, by simp [initialManagerState]⟩
  intro kv₁ h1 kv₂ h2 hname
  exact mem_eq_of_keys_nodup _ hinv.1 kv₁ h1 kv₂ h2
    (by rw [hinv.2 kv₁ h1, hinv.2 kv₂ h2, hname])

/-- A manager holding one importable patch file. -/
def c8State : ManagerState :=
  { config := defaultConfig, libraryIndex := [],
    files := [("in.tscircuit", patchDataToJson (createEmptyPatch "My Patch" "t0"))] }

/-- C8 (counterexample): importing one patch into a fresh manager leaves
TWO library entries for the single persisted patch — the name-keyed entry
created by the internal `savePatch` and the time-keyed entry `importPatch`
adds — both pointing at the same file. -/
theorem importPatch_duplicate_entries :
    (match importPatchM c8State "in.tscircuit" "t1" 999 with
     | Except.ok r => r.2.libraryIndex.map (fun kv => (kv.1, kv.2.filePath))
     | Except.error _ => []) =
      [("patch_My_Patch", "./patches/My_Patch_v1.0.0.tscircuit"),
       ("patch_999", "./patches/My_Patch_v1.0.0.tscircuit")] := by
  decide

/-- A patch for the save-only witness. -/
def c8wPatch : PatchData := createEmptyPatch "Solo" "t0"

/-- C8 (witness): two saves of the same patch from a fresh manager leave a
single index entry; the uniqueness theorem applied to it. -/
theorem saves_one_entry_per_name_witness :
    ("patch_Solo",
      ({ id := "patch_Solo", name := "Solo",
         filePath := "./patches/Solo_v1.0.0.tscircuit",
         metadata := { name := "Solo", description := none,
                       version := "1.0.0", createdAt := "t0",
                       modifiedAt := "t2", author := none, tags := none },
         previewSvg := none,
         lastUsed := some "t2" } : PatchLibraryEntry))
      = ("patch_Solo",
        ({ id := "patch_Solo", name := "Solo",
           filePath := "./patches/Solo_v1.0.0.tscircuit",
           metadata := { name := "Solo", description := none,
                         version := "1.0.0", createdAt := "t0",
                         modifiedAt := "t2", author := none, tags := none },
           previewSvg := none,
           lastUsed := some "t2" } : PatchLibraryEntry)) :=
  saves_one_entry_per_name defaultConfig
    [(c8wPatch, none, "t1", 5), (c8wPatch, none, "t2", 6)]
    _ (by decide) _ (by decide) rfl
